import Mathlib

/-!
Shallow embedding of the fusis API client (`src/api/client.go`).

The Go file is a typed HTTP client for a load-balancer control plane.
Each operation builds a URL from the client's base address, issues one
HTTP request, and dispatches on the response status code.  We embed:

* the entities (`Service`, `Destination`) — these live in the `ipvs`
  package, which is repository code not included under `src/`, so their
  fields are modelled from the spec;
* the pure string helpers (`path`, `idFromLocation`, `formatError`,
  `encode`, `decode`) translated directly from the Go source, with the
  Go standard-library string functions (`strings.Split`,
  `strings.TrimRight`, `strings.Join`, the `%q` verb of `fmt`) given
  executable models;
* each client operation as a function of the transport outcome: the
  operation receives a `transport` oracle mapping the issued request to
  either a transport error or a `Response`, and returns the list of HTTP
  requests it issued together with the Go-style result pair
  (value, optional error).  JSON marshalling/unmarshalling
  (`encoding/json`, external to the repository) is a function parameter,
  so theorems state exactly which of its properties they use.
-/

/-- Modelled from the spec: the `ipvs.Destination` entity (package
`ipvs` is repository code absent from `src/`).  A backend real server:
its own server-assigned id, a back-reference to the owning service's id,
and forwarding parameters. The client reads only `ServiceId`. -/
structure Destination where
  Id : String
  ServiceId : String
  Address : String
  Port : Nat
  Weight : Nat
  Mode : String
deriving Repr, DecidableEq, Inhabited

/-- Modelled from the spec: the `ipvs.Service` entity (package `ipvs`
is repository code absent from `src/`).  A virtual load-balanced
endpoint: server-assigned id, balancing target configuration, and its
current destinations.  The client treats it as an opaque serializable
structure. -/
structure Service where
  Id : String
  Address : String
  Port : Nat
  Protocol : String
  Scheduler : String
  Destinations : List Destination
deriving Repr, DecidableEq, Inhabited

/-- Model of a Go `error` value.  `errors.New("no such service")` is the
package-level sentinel `ErrNoSuchService`, compared by identity in Go;
it gets its own constructor so that identity comparison is equality.
Every other error is carried as its message string. -/
inductive GoErr where
  | errNoSuchService
  | mk (msg : String)
deriving Repr, DecidableEq

/-- Message text of an error (Go `error.Error()`). -/
def GoErr.message : GoErr → String
  | .errNoSuchService => "no such service"
  | .mk m => m

/-- An HTTP response as the client observes it: status code, headers,
and the fully read body (the client always reads the body to the end;
`ioutil.ReadAll` failures are not modelled, the body is already a
string). -/
structure Response where
  statusCode : Nat
  header : List (String × String)
  body : String
deriving Repr, DecidableEq, Inhabited

/-- Model of `resp.Header.Get(key)`: the first value stored under the
key, or the empty string when the header is absent (keys are assumed
stored in canonical form, as `net/http` does). -/
def headerGet (hs : List (String × String)) (key : String) : String :=
  match hs.find? (fun p => p.fst = key) with
  | some p => p.snd
  | none => ""

/-- The HTTP requests the client can issue. -/
inductive Request where
  | get (url : String)
  | post (url : String) (contentType : String) (body : String)
  | delete (url : String)
deriving Repr, DecidableEq

/-- Configuration of the `http.Transport` built by `NewClient`
(durations in seconds). -/
structure TransportConfig where
  dialTimeoutSec : Nat
  keepAliveSec : Nat
  tlsHandshakeTimeoutSec : Nat
  maxIdleConnsPerHost : Int
  disableKeepAlives : Bool
deriving Repr, DecidableEq

/-- Configuration of the `http.Client` built by `NewClient` (durations
in seconds). -/
structure HttpClientConfig where
  transport : TransportConfig
  timeoutSec : Nat
deriving Repr, DecidableEq

/-- The `api.Client` struct: base address plus the HTTP client
configuration. -/
structure Client where
  Addr : String
  HttpClient : HttpClientConfig
deriving Repr, DecidableEq

/-- Go `NewClient` from `client.go`: 30s dial timeout and TCP keep-alive,
30s TLS handshake timeout, one-minute overall timeout, keep-alives
disabled and `MaxIdleConnsPerHost` set to `-1`. -/
def NewClient (addr : String) : Client :=
  let baseTimeout := 30
  let fullTimeout := 60
  { Addr := addr
    HttpClient :=
      { transport :=
          { dialTimeoutSec := baseTimeout
            keepAliveSec := baseTimeout
            tlsHandshakeTimeoutSec := baseTimeout
            maxIdleConnsPerHost := -1
            disableKeepAlives := true }
        timeoutSec := fullTimeout } }

/-- Model of Go `strings.Split(s, "/")` on the character list: splits
at every slash; never returns the empty list (Go `Split` with a
non-empty separator always yields at least one element — on the empty
string it yields `[""]`). -/
def splitOnSlash : List Char → List (List Char)
  | [] => [[]]
  | c :: cs =>
    if c = '/' then [] :: splitOnSlash cs
    else
      match splitOnSlash cs with
      | [] => [[c]]
      | h :: t => (c :: h) :: t

/-- String-level wrapper of `splitOnSlash`. -/
def splitOnSlashStr (s : String) : List String :=
  (splitOnSlash s.data).map String.mk

/-- Model of Go `strings.TrimRight(s, "/")`: remove every trailing
slash. -/
def trimRightSlash (s : String) : String :=
  String.mk ((s.data.reverse.dropWhile (fun c => c = '/')).reverse)

/-- Model of Go `strings.Join(elems, sep)`: first element, then
separator-prefixed rest; empty string on the empty list. -/
def goJoin (sep : String) : List String → String
  | [] => ""
  | a :: as => as.foldl (fun acc x => acc ++ sep ++ x) a

/-- Hexadecimal digit used by the `%q` model. -/
def hexDigit (n : Nat) : Char :=
  if n < 10 then Char.ofNat ('0'.toNat + n) else Char.ofNat ('a'.toNat + n - 10)

/-- Quoting of one character as Go `strconv.Quote` does (the `%q` verb):
quote and backslash get a backslash escape, the standard control
characters get their mnemonic escapes, other control bytes become
`\xNN`.  Exact on ASCII; printable non-ASCII runes pass through
literally as in Go. -/
def goQuoteChar (c : Char) : String :=
  if c = '"' then "\\\""
  else if c = '\\' then "\\\\"
  else if c = '\x07' then "\\a"
  else if c = '\x08' then "\\b"
  else if c = '\x0c' then "\\f"
  else if c = '\n' then "\\n"
  else if c = '\r' then "\\r"
  else if c = '\t' then "\\t"
  else if c = '\x0b' then "\\v"
  else if c.toNat < 0x20 ∨ c.toNat = 0x7f then
    "\\x" ++ String.mk [hexDigit (c.toNat / 16), hexDigit (c.toNat % 16)]
  else String.singleton c

/-- Concatenation of the escaped characters, in order (the loop of
Go `strconv.Quote`). -/
def goQuoteAux : List Char → String
  | [] => ""
  | c :: cs => goQuoteChar c ++ goQuoteAux cs

/-- Model of the `%q` verb: the body between double quotes, each
character escaped per `goQuoteChar`. -/
def goQuote (s : String) : String :=
  "\"" ++ goQuoteAux s.data ++ "\""

/-- Go `func (c Client) path(paths ...string) string` from `client.go`:
join the right-slash-trimmed base address with the path segments
using `/`. -/
def Client.path (c : Client) (paths : List String) : String :=
  goJoin "/" (trimRightSlash c.Addr :: paths)

/-- Go `func idFromLocation(resp *http.Response) string` from `client.go`:
split the `Location` header on `/` and take the last element (the
split is never empty, so the Go index `parts[len(parts)-1]` is the
last element). -/
def idFromLocation (resp : Response) : String :=
  (splitOnSlashStr (headerGet resp.header "Location")).getLastD ""

/-- Go `func formatError(resp *http.Response) error` from `client.go`:
`fmt.Errorf("Request failed. Status Code: %v. Body: %q", ...)`. -/
def formatError (resp : Response) : GoErr :=
  .mk ("Request failed. Status Code: " ++ toString resp.statusCode
       ++ ". Body: " ++ goQuote resp.body)

/-- Go `func encode(obj interface) (io.Reader, error)` from
`client.go`: `json.Marshal` of the entity (external, passed as the
`marshal` parameter), errors returned as-is. -/
def encode (marshal : α → Except String String) (obj : α) : Except String String :=
  marshal obj

/-- Go `func decode(body io.Reader, obj interface) error` from
`client.go`: unmarshal the fully read body (`json.Unmarshal` is
external, passed as the `unmarshal` parameter); a parse failure is
wrapped as `unable to unmarshal body %q: %s`. -/
def decode (unmarshal : String → Except String α) (body : String) : Except GoErr α :=
  match unmarshal body with
  | .ok v => .ok v
  | .error e => .error (.mk ("unable to unmarshal body " ++ goQuote body ++ ": " ++ e))

/-- Go `func (c *Client) GetServices() ([]*ipvs.Service, error)`.
The Go slice `[]*ipvs.Service` is `Option (List (Option Service))`
(`none` is the nil slice, element `none` a nil pointer).  Returns the
issued requests and the Go result pair. -/
def GetServices (c : Client)
    (unmarshal : String → Except String (Option (List (Option Service))))
    (transport : Request → Except String Response) :
    List Request × (Option (List (Option Service)) × Option GoErr) :=
  let req := Request.get (c.path ["services"])
  ([req],
    match transport req with
    | .error e => (none, some (.mk e))
    | .ok resp =>
      if resp.statusCode = 200 then
        match decode unmarshal resp.body with
        | .ok services => (services, none)
        | .error e => (none, some e)
      else if resp.statusCode = 204 then (some [], none)
      else (none, some (formatError resp)))

/-- Go `func (c *Client) GetService(id string) (*ipvs.Service, error)`:
200 decodes into the `*Service` (nil on JSON `null`), 404 yields the
sentinel `ErrNoSuchService`, anything else the formatted error. -/
def GetService (c : Client)
    (unmarshal : String → Except String (Option Service)) (id : String)
    (transport : Request → Except String Response) :
    List Request × (Option Service × Option GoErr) :=
  let req := Request.get (c.path ["services", id])
  ([req],
    match transport req with
    | .error e => (none, some (.mk e))
    | .ok resp =>
      if resp.statusCode = 200 then
        match decode unmarshal resp.body with
        | .ok svc => (svc, none)
        | .error e => (none, some e)
      else if resp.statusCode = 404 then (none, some .errNoSuchService)
      else (none, some (formatError resp)))

/-- Go `func (c *Client) CreateService(svc ipvs.Service) (string, error)`:
marshal the service (a failure returns at once, before any request),
POST it, succeed exactly on 201 with the id taken from the `Location`
header. -/
def CreateService (c : Client) (marshal : Service → Except String String)
    (svc : Service) (transport : Request → Except String Response) :
    List Request × (String × Option GoErr) :=
  match encode marshal svc with
  | .error e => ([], ("", some (.mk e)))
  | .ok body =>
    let req := Request.post (c.path ["services"]) "application/json" body
    ([req],
      match transport req with
      | .error e => ("", some (.mk e))
      | .ok resp =>
        if resp.statusCode = 201 then (idFromLocation resp, none)
        else ("", some (formatError resp)))

/-- Go `func (c *Client) DeleteService(id string) error`: DELETE, succeed
exactly on 200 (the always-successful `http.NewRequest` construction is
not modelled as fallible). -/
def DeleteService (c : Client) (id : String)
    (transport : Request → Except String Response) :
    List Request × Option GoErr :=
  let req := Request.delete (c.path ["services", id])
  ([req],
    match transport req with
    | .error e => some (.mk e)
    | .ok resp =>
      if resp.statusCode = 200 then none else some (formatError resp))

/-- Go `func (c *Client) AddDestination(dst ipvs.Destination) (string, error)`:
marshal the destination (a failure returns at once, before any
request), POST it under the owning service, succeed exactly on 201 with
the id taken from the `Location` header. -/
def AddDestination (c : Client) (marshal : Destination → Except String String)
    (dst : Destination) (transport : Request → Except String Response) :
    List Request × (String × Option GoErr) :=
  match encode marshal dst with
  | .error e => ([], ("", some (.mk e)))
  | .ok body =>
    let req := Request.post (c.path ["services", dst.ServiceId, "destinations"])
      "application/json" body
    ([req],
      match transport req with
      | .error e => ("", some (.mk e))
      | .ok resp =>
        if resp.statusCode = 201 then (idFromLocation resp, none)
        else ("", some (formatError resp)))

/-- Go `func (c *Client) DeleteDestination(serviceId, destinationId string) error`:
DELETE the nested resource, succeed exactly on 200. -/
def DeleteDestination (c : Client) (serviceId destinationId : String)
    (transport : Request → Except String Response) :
    List Request × Option GoErr :=
  let req := Request.delete
    (c.path ["services", serviceId, "destinations", destinationId])
  ([req],
    match transport req with
    | .error e => some (.mk e)
    | .ok resp =>
      if resp.statusCode = 200 then none else some (formatError resp))

/-! ### Helper lemmas about the string models -/

/-- Splitting never produces the empty list, mirroring Go's `strings.Split`
with a non-empty separator. -/
theorem splitOnSlash_ne_nil (cs : List Char) : splitOnSlash cs ≠ [] := by
  induction cs with
  | nil => simp [splitOnSlash]
  | cons c cs ih =>
    by_cases hc : c = '/'
    · simp [splitOnSlash, hc]
    · simp only [splitOnSlash, if_neg hc]
      cases hsp : splitOnSlash cs with
      | nil => simp
      | cons h t => simp

/-- A slash-free character list is returned whole as the single piece. -/
theorem splitOnSlash_no_slash (cs : List Char) (h : '/' ∉ cs) : splitOnSlash cs = [cs] := by
  induction cs with
  | nil => rfl
  | cons c cs ih =>
    have hc : ¬ c = '/' := fun e => h (by simp [e])
    have hcs : '/' ∉ cs := fun hm => h (List.mem_cons_of_mem _ hm)
    simp [splitOnSlash, hc, ih hcs]

/-- Splitting steps over a leading slash by emitting an empty piece. -/
theorem splitOnSlash_cons_slash (cs : List Char) :
    splitOnSlash ('/' :: cs) = [] :: splitOnSlash cs := by
  simp [splitOnSlash]

/-- Splitting steps over a leading non-slash character by extending the
first piece. -/
theorem splitOnSlash_cons_ne (c : Char) (cs : List Char) (hc : c ≠ '/')
    (h : List Char) (t : List (List Char)) (hsp : splitOnSlash cs = h :: t) :
    splitOnSlash (c :: cs) = (c :: h) :: t := by
  simp [splitOnSlash, hc, hsp]

/-- A list containing a slash splits into at least two pieces. -/
theorem splitOnSlash_length_ge_two (xs ys : List Char) :
    2 ≤ (splitOnSlash (xs ++ '/' :: ys)).length := by
  induction xs with
  | nil =>
    rw [List.nil_append, splitOnSlash_cons_slash, List.length_cons]
    have hne := splitOnSlash_ne_nil ys
    have : 1 ≤ (splitOnSlash ys).length := List.length_pos.mpr hne
    omega
  | cons x xs ih =>
    rw [List.cons_append]
    by_cases hx : x = '/'
    · subst hx
      rw [splitOnSlash_cons_slash, List.length_cons]
      omega
    · cases hsp : splitOnSlash (xs ++ '/' :: ys) with
      | nil => exact absurd hsp (splitOnSlash_ne_nil _)
      | cons h t =>
        rw [splitOnSlash_cons_ne x _ hx h t hsp]
        rw [hsp] at ih
        simp only [List.length_cons] at ih ⊢
        omega

/-- The last piece of a split is the last piece of the part after the
last separator occurrence we expose. -/
theorem splitOnSlash_append_slash (xs ys : List Char) :
    (splitOnSlash (xs ++ '/' :: ys)).getLast? = (splitOnSlash ys).getLast? := by
  induction xs with
  | nil =>
    rw [List.nil_append, splitOnSlash_cons_slash]
    cases hsp : splitOnSlash ys with
    | nil => exact absurd hsp (splitOnSlash_ne_nil ys)
    | cons h t => rw [List.getLast?_cons_cons]
  | cons x xs ih =>
    rw [List.cons_append]
    by_cases hx : x = '/'
    · subst hx
      rw [splitOnSlash_cons_slash]
      cases hsp : splitOnSlash (xs ++ '/' :: ys) with
      | nil => exact absurd hsp (splitOnSlash_ne_nil _)
      | cons h t =>
        rw [List.getLast?_cons_cons, ← hsp]
        exact ih
    · cases hsp : splitOnSlash (xs ++ '/' :: ys) with
      | nil => exact absurd hsp (splitOnSlash_ne_nil _)
      | cons h t =>
        have hlen := splitOnSlash_length_ge_two xs ys
        rw [hsp] at hlen
        cases t with
        | nil => simp at hlen
        | cons b t' =>
          have hstep := splitOnSlash_cons_ne x _ hx h (b :: t') hsp
          have h2 := ih
          rw [hsp, List.getLast?_cons_cons] at h2
          rw [hstep, List.getLast?_cons_cons, h2]

/-- Two strings with the same character data are equal. -/
theorem strExt {a b : String} (h : a.data = b.data) : a = b := congrArg String.mk h

/-- Extraction helper: the last piece of splitting `p ++ "/" ++ seg` on
slashes is `seg` whenever `seg` itself is slash-free. -/
theorem getLastD_splitOnSlashStr_append (p seg : String) (h : '/' ∉ seg.data) :
    (splitOnSlashStr (p ++ "/" ++ seg)).getLastD "" = seg := by
  have hdata : (p ++ "/" ++ seg).data = p.data ++ '/' :: seg.data := by
    simp [String.data_append]
  unfold splitOnSlashStr
  rw [hdata, List.getLastD_eq_getLast?, List.getLast?_map, splitOnSlash_append_slash,
    splitOnSlash_no_slash _ h]
  rfl

/-- Spec-side rendering of "joined with the segments using `/` as
separator": each segment contributes exactly one leading slash. -/
def specSegmentsPath : List String → String
  | [] => ""
  | s :: ss => "/" ++ s ++ specSegmentsPath ss

/-- The join fold equals the spec-side segment path appended to the
accumulator. -/
theorem foldl_slash_append (ss : List String) (acc : String) :
    List.foldl (fun a x => a ++ "/" ++ x) acc ss = acc ++ specSegmentsPath ss := by
  induction ss generalizing acc with
  | nil => simp [specSegmentsPath, String.append_empty]
  | cons s ss ih =>
    rw [List.foldl_cons, ih]
    simp only [specSegmentsPath, String.append_assoc]

/-- Trimming removes a trailing slash before joining. -/
theorem trimRightSlash_append_slash (s : String) :
    trimRightSlash (s ++ "/") = trimRightSlash s := by
  unfold trimRightSlash
  simp [String.data_append]

/-- Containment of one string in another, as an explicit decomposition. -/
def StrContains (hay needle : String) : Prop := ∃ s t, hay = s ++ needle ++ t

/-- Every character of a contained string occurs in the container. -/
theorem strContains_mem {hay needle : String} (h : StrContains hay needle) :
    ∀ ch ∈ needle.data, ch ∈ hay.data := by
  obtain ⟨s, t, rfl⟩ := h
  intro ch hch
  simp only [String.data_append, List.mem_append]
  exact Or.inl (Or.inr hch)

/-- Characters the `%q` verb reproduces unchanged: printable ASCII other
than the double quote and the backslash. -/
def plainChar (c : Char) : Prop :=
  0x20 ≤ c.toNat ∧ c.toNat < 0x7f ∧ c ≠ '"' ∧ c ≠ '\\'

instance : DecidablePred plainChar := fun c => by unfold plainChar; infer_instance

/-- Quoting a plain character is the identity. -/
theorem goQuoteChar_plain {c : Char} (h : plainChar c) : goQuoteChar c = String.singleton c := by
  obtain ⟨h1, h2, hq, hb⟩ := h
  have e07 : c ≠ '\x07' := fun e => absurd h1 (by subst e; decide)
  have e08 : c ≠ '\x08' := fun e => absurd h1 (by subst e; decide)
  have e0c : c ≠ '\x0c' := fun e => absurd h1 (by subst e; decide)
  have e0a : c ≠ '\n' := fun e => absurd h1 (by subst e; decide)
  have e0d : c ≠ '\r' := fun e => absurd h1 (by subst e; decide)
  have e09 : c ≠ '\t' := fun e => absurd h1 (by subst e; decide)
  have e0b : c ≠ '\x0b' := fun e => absurd h1 (by subst e; decide)
  have hr : ¬ (c.toNat < 0x20 ∨ c.toNat = 0x7f) := by omega
  simp only [goQuoteChar, if_neg hq, if_neg hb, if_neg e07, if_neg e08, if_neg e0c,
    if_neg e0a, if_neg e0d, if_neg e09, if_neg e0b, if_neg hr]

/-- Quoting a list of plain characters reproduces the list. -/
theorem goQuoteAux_plain (cs : List Char) (h : ∀ c ∈ cs, plainChar c) :
    goQuoteAux cs = String.mk cs := by
  induction cs with
  | nil => rfl
  | cons c cs ih =>
    rw [goQuoteAux, goQuoteChar_plain (h c (List.mem_cons_self c cs)),
      ih (fun x hx => h x (List.mem_cons_of_mem _ hx))]
    apply strExt
    simp [String.data_append, String.singleton]

/-- Quoting a string of plain characters just wraps it in double quotes. -/
theorem goQuote_plain (s : String) (h : ∀ c ∈ s.data, plainChar c) :
    goQuote s = "\"" ++ s ++ "\"" := by
  unfold goQuote
  rw [goQuoteAux_plain s.data h]

/-! ### Sample data used by the witnesses -/

/-- A response with the given status and body and no headers. -/
def mkResp (code : Nat) (b : String) : Response :=
  { statusCode := code, header := [], body := b }

/-- A response carrying a `Location` header. -/
def locResp (code : Nat) (loc : String) : Response :=
  { statusCode := code, header := [("Location", loc)], body := "" }

/-- A concrete client. -/
def sampleClient : Client := NewClient "http://host"

/-- A concrete service. -/
def sampleService : Service :=
  { Id := "", Address := "10.0.0.1", Port := 80, Protocol := "tcp",
    Scheduler := "rr", Destinations := [] }

/-- A concrete destination owned by service `"5"`. -/
def sampleDestination : Destination :=
  { Id := "", ServiceId := "5", Address := "10.0.0.2", Port := 8080,
    Weight := 1, Mode := "nat" }

/-- A concrete single-service unmarshaller: `"null"` is the JSON null
(nil pointer), the empty object is `sampleService`, all else fails. -/
def sampleUnmarshalSvc : String → Except String (Option Service) := fun s =>
  if s = "null" then .ok none
  else if s = "SVC" then .ok (some sampleService)
  else .error "invalid character"

/-- A concrete service-list unmarshaller. -/
def sampleUnmarshalList : String → Except String (Option (List (Option Service))) := fun s =>
  if s = "[]" then .ok (some [])
  else .error "invalid character"

/-- A concrete always-successful service marshaller. -/
def sampleMarshalSvc : Service → Except String String := fun _ => .ok "SVCJSON"

/-- A concrete always-successful destination marshaller. -/
def sampleMarshalDst : Destination → Except String String := fun _ => .ok "DSTJSON"

/-- A concrete always-failing service marshaller. -/
def failMarshalSvc : Service → Except String String := fun _ =>
  .error "json: unsupported type"

/-- A concrete always-failing destination marshaller. -/
def failMarshalDst : Destination → Except String String := fun _ =>
  .error "json: unsupported type"

/-! ### Claim theorems -/

/-- C1: for every service id, `GetService` returns the decoded service
(no error) when the HTTP status is 200 and unmarshalling succeeds,
returns the sentinel no-such-service error and no service on 404, and
returns the generic formatted error and no service on every other
status. -/
theorem c1_getService_status_dispatch (c : Client)
    (u : String → Except String (Option Service)) (id : String) (resp : Response) :
    (resp.statusCode = 200 → ∀ svc, u resp.body = .ok svc →
      (GetService c u id (fun _ => .ok resp)).2 = (svc, none)) ∧
    (resp.statusCode = 404 →
      (GetService c u id (fun _ => .ok resp)).2 = (none, some GoErr.errNoSuchService)) ∧
    (resp.statusCode ≠ 200 → resp.statusCode ≠ 404 →
      (GetService c u id (fun _ => .ok resp)).2 = (none, some (formatError resp))) := by
  refine ⟨fun h svc hsvc => ?_, fun h => ?_, fun h1 h2 => ?_⟩
  · simp [GetService, decode, h, hsvc]
  · simp [GetService, h]
  · simp [GetService, h1, h2]

/-- Witness for C1 at concrete responses with statuses 200, 404, 500. -/
theorem c1_getService_status_dispatch_witness :
    (GetService sampleClient sampleUnmarshalSvc "1" (fun _ => .ok (mkResp 200 "SVC"))).2
        = (some sampleService, none) ∧
    (GetService sampleClient sampleUnmarshalSvc "1" (fun _ => .ok (mkResp 404 ""))).2
        = (none, some GoErr.errNoSuchService) ∧
    (GetService sampleClient sampleUnmarshalSvc "1" (fun _ => .ok (mkResp 500 "oops"))).2
        = (none, some (formatError (mkResp 500 "oops"))) := by
  refine ⟨?_, ?_, ?_⟩
  · exact (c1_getService_status_dispatch sampleClient sampleUnmarshalSvc "1"
      (mkResp 200 "SVC")).1 rfl (some sampleService) rfl
  · exact (c1_getService_status_dispatch sampleClient sampleUnmarshalSvc "1"
      (mkResp 404 "")).2.1 rfl
  · exact (c1_getService_status_dispatch sampleClient sampleUnmarshalSvc "1"
      (mkResp 500 "oops")).2.2 (by decide) (by decide)

/-- C2: `GetServices` decodes the body as a JSON array on status 200;
on status 204 it returns the explicit empty slice for every unmarshaller
and every body (so nothing is read or decoded and no decode error can
arise); every other status yields the generic formatted error and no
slice. -/
theorem c2_getServices_status_dispatch (c : Client)
    (u : String → Except String (Option (List (Option Service)))) (resp : Response) :
    (resp.statusCode = 200 → ∀ svcs, u resp.body = .ok svcs →
      (GetServices c u (fun _ => .ok resp)).2 = (svcs, none)) ∧
    (resp.statusCode = 204 → ∀ u' b',
      (GetServices c u' (fun _ => Except.ok { resp with body := b' })).2
        = (some [], none)) ∧
    (resp.statusCode ≠ 200 → resp.statusCode ≠ 204 →
      (GetServices c u (fun _ => .ok resp)).2 = (none, some (formatError resp))) := by
  refine ⟨fun h svcs hsvcs => ?_, fun h u' b' => ?_, fun h1 h2 => ?_⟩
  · simp [GetServices, decode, h, hsvcs]
  · simp [GetServices, h]
  · simp [GetServices, h1, h2]

/-- Witness for C2 at concrete responses with statuses 200, 204, 500. -/
theorem c2_getServices_status_dispatch_witness :
    (GetServices sampleClient sampleUnmarshalList (fun _ => .ok (mkResp 200 "[]"))).2
        = (some [], none) ∧
    (GetServices sampleClient sampleUnmarshalList (fun _ => .ok (mkResp 204 ""))).2
        = (some [], none) ∧
    (GetServices sampleClient sampleUnmarshalList (fun _ => .ok (mkResp 500 "oops"))).2
        = (none, some (formatError (mkResp 500 "oops"))) := by
  refine ⟨?_, ?_, ?_⟩
  · exact (c2_getServices_status_dispatch sampleClient sampleUnmarshalList
      (mkResp 200 "[]")).1 rfl (some []) rfl
  · exact (c2_getServices_status_dispatch sampleClient sampleUnmarshalList
      (mkResp 204 "")).2.1 rfl sampleUnmarshalList ""
  · exact (c2_getServices_status_dispatch sampleClient sampleUnmarshalList
      (mkResp 500 "oops")).2.2 (by decide) (by decide)

/-- C3: with a successfully marshalled entity, `CreateService` and
`AddDestination` succeed exactly on status 201, returning the last piece
of the `Location` header split on slashes as the new identifier; every
other status yields the generic formatted error and the empty
identifier. -/
theorem c3_create_location_id (c : Client) (ms : Service → Except String String)
    (md : Destination → Except String String) (svc : Service) (dst : Destination)
    (bs bd : String) (resp : Response)
    (hs : ms svc = .ok bs) (hd : md dst = .ok bd) :
    (resp.statusCode = 201 →
      (CreateService c ms svc (fun _ => .ok resp)).2
          = ((splitOnSlashStr (headerGet resp.header "Location")).getLastD "", none) ∧
      (AddDestination c md dst (fun _ => .ok resp)).2
          = ((splitOnSlashStr (headerGet resp.header "Location")).getLastD "", none)) ∧
    (resp.statusCode ≠ 201 →
      (CreateService c ms svc (fun _ => .ok resp)).2 = ("", some (formatError resp)) ∧
      (AddDestination c md dst (fun _ => .ok resp)).2 = ("", some (formatError resp))) := by
  constructor
  · intro h
    constructor <;>
      simp [CreateService, AddDestination, encode, hs, hd, h, idFromLocation]
  · intro h
    constructor <;>
      simp [CreateService, AddDestination, encode, hs, hd, h]

/-- Witness for C3: a 201 response whose location ends in `42` yields id
`"42"`; a 409 response yields the formatted error and an empty id. -/
theorem c3_create_location_id_witness :
    (CreateService sampleClient sampleMarshalSvc sampleService
        (fun _ => .ok (locResp 201 "http://host/services/42"))).2 = ("42", none) ∧
    (AddDestination sampleClient sampleMarshalDst sampleDestination
        (fun _ => .ok (mkResp 409 "conflict"))).2
      = ("", some (formatError (mkResp 409 "conflict"))) := by
  constructor
  · have h := (c3_create_location_id sampleClient sampleMarshalSvc sampleMarshalDst
      sampleService sampleDestination "SVCJSON" "DSTJSON"
      (locResp 201 "http://host/services/42") rfl rfl).1 rfl
    rw [h.1]
    decide
  · exact ((c3_create_location_id sampleClient sampleMarshalSvc sampleMarshalDst
      sampleService sampleDestination "SVCJSON" "DSTJSON"
      (mkResp 409 "conflict") rfl rfl).2 (by decide)).2

/-- C4: on a 404 response, every operation other than the single get —
list, create, delete service, add destination, delete destination —
produces the generic formatted error, which is never the sentinel
no-such-service error. -/
theorem c4_sentinel_only_single_get (c : Client)
    (u : String → Except String (Option (List (Option Service))))
    (ms : Service → Except String String) (md : Destination → Except String String)
    (svc : Service) (dst : Destination) (sid did bs bd : String) (resp : Response)
    (h404 : resp.statusCode = 404) (hs : ms svc = .ok bs) (hd : md dst = .ok bd) :
    (GetServices c u (fun _ => .ok resp)).2 = (none, some (formatError resp)) ∧
    (CreateService c ms svc (fun _ => .ok resp)).2 = ("", some (formatError resp)) ∧
    (DeleteService c sid (fun _ => .ok resp)).2 = some (formatError resp) ∧
    (AddDestination c md dst (fun _ => .ok resp)).2 = ("", some (formatError resp)) ∧
    (DeleteDestination c sid did (fun _ => .ok resp)).2 = some (formatError resp) ∧
    formatError resp ≠ GoErr.errNoSuchService := by
  refine ⟨?_, ?_, ?_, ?_, ?_, ?_⟩ <;>
    simp [GetServices, CreateService, DeleteService, AddDestination,
      DeleteDestination, encode, hs, hd, h404, formatError]

/-- Witness for C4 at a concrete 404 response. -/
theorem c4_sentinel_only_single_get_witness :
    (GetServices sampleClient sampleUnmarshalList
        (fun _ => .ok (mkResp 404 "not found"))).2
      = (none, some (formatError (mkResp 404 "not found"))) ∧
    (DeleteService sampleClient "1" (fun _ => .ok (mkResp 404 "not found"))).2
      = some (formatError (mkResp 404 "not found")) ∧
    formatError (mkResp 404 "not found") ≠ GoErr.errNoSuchService := by
  have h := c4_sentinel_only_single_get sampleClient sampleUnmarshalList
    sampleMarshalSvc sampleMarshalDst sampleService sampleDestination
    "1" "7" "SVCJSON" "DSTJSON" (mkResp 404 "not found") rfl rfl rfl
  exact ⟨h.1, h.2.2.1, h.2.2.2.2.2⟩

/-- C5: identifier extraction is purely syntactic — the id is the last
piece of the `Location` header value split on `/` (so a slash-free final
segment is returned verbatim, and `http://host/services/42` yields
`42`), and an absent or empty header yields the empty string rather
than an error. -/
theorem c5_idFromLocation_syntactic :
    (∀ p seg : String, '/' ∉ seg.data →
      ∀ code hs b, headerGet hs "Location" = p ++ "/" ++ seg →
        idFromLocation { statusCode := code, header := hs, body := b } = seg) ∧
    (∀ code b, idFromLocation { statusCode := code, header := [], body := b } = "") ∧
    (∀ code b hs, headerGet hs "Location" = "" →
      idFromLocation { statusCode := code, header := hs, body := b } = "") ∧
    idFromLocation (locResp 201 "http://host/services/42") = "42" ∧
    idFromLocation (locResp 201 "http://host/services/5/destinations/7") = "7" := by
  refine ⟨?_, ?_, ?_, by decide, by decide⟩
  · intro p seg hseg code hs b hloc
    show (splitOnSlashStr (headerGet hs "Location")).getLastD "" = seg
    rw [hloc]
    exact getLastD_splitOnSlashStr_append p seg hseg
  · intro code b
    rfl
  · intro code b hs hloc
    show (splitOnSlashStr (headerGet hs "Location")).getLastD "" = ""
    rw [hloc]
    rfl

/-- Witness for C5 applying the general slash-free-segment case at a
concrete header. -/
theorem c5_idFromLocation_syntactic_witness :
    idFromLocation (locResp 201 "base/xyz") = "xyz" :=
  c5_idFromLocation_syntactic.1 "base" "xyz" (by decide) 201
    [("Location", "base/xyz")] "" (by decide)

/-- C6: the built path is the base address with trailing slashes
removed, followed by one `/`-separated segment per element; trimming
removes a trailing slash of the base, so the spec example produces no
duplicated slash. -/
theorem c6_path_building (c : Client) (segs : List String) :
    c.path segs = trimRightSlash c.Addr ++ specSegmentsPath segs ∧
    (∀ s : String, trimRightSlash (s ++ "/") = trimRightSlash s) ∧
    (NewClient "http://host/").path ["services", "5", "destinations"]
        = "http://host/services/5/destinations" := by
  refine ⟨?_, trimRightSlash_append_slash, by decide⟩
  show goJoin "/" (trimRightSlash c.Addr :: segs) = _
  simp only [goJoin]
  exact foldl_slash_append segs (trimRightSlash c.Addr)

/-- C7 counterexample: with status 500 and a body consisting of one
newline character, the formatted message does not contain the raw body
text — the `%q` verb renders the newline as a backslash-n escape, so
the literal newline never occurs in the message. -/
theorem c7_formatError_counterexample :
    ¬ StrContains (formatError (mkResp 500 "\n")).message "\n" := by
  intro h
  have hmem := strContains_mem h '\n' (by decide)
  exact absurd hmem (by decide)

/-- C7 (amended): the generic formatted error message contains the
decimal status code and the Go-quoted rendering of the body (even when
the body is empty or not JSON); the raw body text itself occurs in the
message whenever quoting leaves all of its characters unchanged
(printable ASCII with no double quote and no backslash). -/
theorem c7_formatError_message_contents (resp : Response) :
    StrContains (formatError resp).message (toString resp.statusCode) ∧
    StrContains (formatError resp).message (goQuote resp.body) ∧
    ((∀ c ∈ resp.body.data, plainChar c) →
      StrContains (formatError resp).message resp.body) := by
  refine ⟨?_, ?_, fun hplain => ?_⟩
  · refine ⟨"Request failed. Status Code: ", ". Body: " ++ goQuote resp.body, ?_⟩
    simp [formatError, GoErr.message, String.append_assoc]
  · refine ⟨"Request failed. Status Code: " ++ toString resp.statusCode ++ ". Body: ",
      "", ?_⟩
    simp [formatError, GoErr.message, String.append_assoc, String.append_empty]
  · refine ⟨"Request failed. Status Code: " ++ toString resp.statusCode
      ++ ". Body: " ++ "\"", "\"", ?_⟩
    show "Request failed. Status Code: " ++ toString resp.statusCode
      ++ ". Body: " ++ goQuote resp.body = _
    rw [goQuote_plain resp.body hplain, ← String.append_assoc, ← String.append_assoc]

/-- Witness for C7 (amended) at a concrete response whose body is plain
printable ASCII. -/
theorem c7_formatError_message_contents_witness :
    StrContains (formatError (mkResp 503 "overload")).message
      (mkResp 503 "overload").body :=
  (c7_formatError_message_contents (mkResp 503 "overload")).2.2 (by decide)

/-- C8: when marshalling the entity fails, `CreateService` and
`AddDestination` return the marshalling error at once and issue no HTTP
request, whatever the transport would have answered. -/
theorem c8_encode_failure_no_request (c : Client)
    (ms : Service → Except String String) (md : Destination → Except String String)
    (svc : Service) (dst : Destination) (e e' : String)
    (hs : ms svc = .error e) (hd : md dst = .error e') :
    ∀ t t' : Request → Except String Response,
      CreateService c ms svc t = ([], ("", some (GoErr.mk e))) ∧
      AddDestination c md dst t' = ([], ("", some (GoErr.mk e'))) := by
  intro t t'
  constructor <;> simp [CreateService, AddDestination, encode, hs, hd]

/-- Witness for C8 with a concrete failing marshaller. -/
theorem c8_encode_failure_no_request_witness :
    CreateService sampleClient failMarshalSvc sampleService
        (fun _ => .ok (mkResp 201 ""))
      = ([], ("", some (GoErr.mk "json: unsupported type"))) :=
  (c8_encode_failure_no_request sampleClient failMarshalSvc failMarshalDst
    sampleService sampleDestination "json: unsupported type"
    "json: unsupported type" rfl rfl
    (fun _ => .ok (mkResp 201 "")) (fun _ => .ok (mkResp 201 ""))).1

/-- C9: the client built by `NewClient` has a 30-second dial timeout,
30-second TCP keep-alive probe interval, 30-second TLS handshake
timeout, 60-second overall request timeout, HTTP keep-alives disabled,
and a non-positive idle-connection budget per host (the Go value is
`-1`, which `net/http` treats as keeping no idle connections). -/
theorem c9_newClient_config (addr : String) :
    (NewClient addr).HttpClient.transport.dialTimeoutSec = 30 ∧
    (NewClient addr).HttpClient.transport.keepAliveSec = 30 ∧
    (NewClient addr).HttpClient.transport.tlsHandshakeTimeoutSec = 30 ∧
    (NewClient addr).HttpClient.timeoutSec = 60 ∧
    (NewClient addr).HttpClient.transport.disableKeepAlives = true ∧
    (NewClient addr).HttpClient.transport.maxIdleConnsPerHost = -1 ∧
    (NewClient addr).HttpClient.transport.maxIdleConnsPerHost ≤ 0 := by
  refine ⟨rfl, rfl, rfl, rfl, rfl, rfl, ?_⟩
  show (-1 : Int) ≤ 0
  norm_num

/-- C10: a 200 response whose body is the JSON literal `null` makes
`GetService` return a nil service pointer together with no error; the
hypothesis records the documented `encoding/json` behavior that
unmarshalling `null` into a pointer sets it to nil and reports no
error. -/
theorem c10_getService_null_body (c : Client)
    (u : String → Except String (Option Service)) (id : String)
    (hs : List (String × String)) (hu : u "null" = .ok none) :
    (GetService c u id
        (fun _ => .ok { statusCode := 200, header := hs, body := "null" })).2
      = (none, none) := by
  simp [GetService, decode, hu]

/-- Witness for C10 with a concrete unmarshaller mapping `null` to the
nil pointer. -/
theorem c10_getService_null_body_witness :
    (GetService sampleClient sampleUnmarshalSvc "1"
        (fun _ => .ok { statusCode := 200, header := [], body := "null" })).2
      = (none, none) :=
  c10_getService_null_body sampleClient sampleUnmarshalSvc "1" [] rfl
